import Mathlib

/-!
Verification of the discord-agent core (src/agent.py, src/tools/kv_store.py).

The development shallowly embeds the agent's data model and algorithms:
pure Python functions become Lean functions over `String`/`List`/`Nat`;
the mutable module-level dict of `kv_store.py` becomes an explicitly
threaded association list with Python-dict update semantics; external
collaborators (the BAML oracle, HTTP transport, the Tavily client, the
filesystem, the shell, the Ollama server) become outcome functions packed
into an `Env` record, exactly as the spec's section 6 treats them as
opaque capability providers.  Each loop entry point additionally returns
an event trace recording every capability invocation and every memory
append, so that gating and ordering properties can be stated.
-/

namespace DiscordAgent

/-! ## String helpers (Python semantics) -/

/-- Python `s.startswith(p)`. -/
def pyStartsWith (s p : String) : Bool :=
  p.toList.isPrefixOf s.toList

/-- Python `p in s` (substring containment). -/
def pyContains (s p : String) : Bool :=
  decide (p.toList <:+: s.toList)

/-- Python `s[:n]` for a string (first `n` code points). -/
def pyTake (s : String) (n : Nat) : String :=
  ⟨s.toList.take n⟩

/-- Python `len(s)` for a string (number of code points). -/
def pyLen (s : String) : Nat :=
  s.toList.length

/-- Python `lst[-k:]`.  For `k = 0` this is the whole list (`lst[-0:]`
is `lst[0:]`); for `k > 0` it is the last `k` elements. -/
def pySliceLast {α : Type} (l : List α) (k : Nat) : List α :=
  if k = 0 then l else l.drop (l.length - k)

/-! ## SHA-256 (`hashlib.sha256`), over UTF-8 bytes, as used by kv_store -/

/-- Truncate to a 32-bit word. -/
def w32 (n : Nat) : Nat := n % 4294967296

/-- 32-bit rotate right. -/
def rotr (k x : Nat) : Nat := w32 ((x >>> k) ||| (x <<< (32 - k)))

def shaCh (x y z : Nat) : Nat := (x &&& y) ^^^ ((x ^^^ 4294967295) &&& z)

def shaMaj (x y z : Nat) : Nat := (x &&& y) ^^^ (x &&& z) ^^^ (y &&& z)

def bsig0 (x : Nat) : Nat := rotr 2 x ^^^ rotr 13 x ^^^ rotr 22 x

def bsig1 (x : Nat) : Nat := rotr 6 x ^^^ rotr 11 x ^^^ rotr 25 x

def ssig0 (x : Nat) : Nat := rotr 7 x ^^^ rotr 18 x ^^^ (x >>> 3)

def ssig1 (x : Nat) : Nat := rotr 17 x ^^^ rotr 19 x ^^^ (x >>> 10)

/-- The 64 SHA-256 round constants (decimal). -/
def K256 : List Nat :=
  [1116352408, 1899447441, 3049323471, 3921009573, 961987163,
   1508970993, 2453635748, 2870763221, 3624381080, 310598401,
   607225278, 1426881987, 1925078388, 2162078206, 2614888103,
   3248222580, 3835390401, 4022224774, 264347078, 604807628,
   770255983, 1249150122, 1555081692, 1996064986, 2554220882,
   2821834349, 2952996808, 3210313671, 3336571891, 3584528711,
   113926993, 338241895, 666307205, 773529912, 1294757372,
   1396182291, 1695183700, 1986661051, 2177026350, 2456956037,
   2730485921, 2820302411, 3259730800, 3345764771, 3516065817,
   3600352804, 4094571909, 275423344, 430227734, 506948616,
   659060556, 883997877, 958139571, 1322822218, 1537002063,
   1747873779, 1955562222, 2024104815, 2227730452, 2361852424,
   2428436474, 2756734187, 3204031479, 3329325298]

/-- The eight-word SHA-256 hash state. -/
structure H8 where
  a : Nat
  b : Nat
  c : Nat
  d : Nat
  e : Nat
  f : Nat
  g : Nat
  h : Nat
  deriving DecidableEq

/-- SHA-256 initial hash value (decimal). -/
def shaInit : H8 :=
  ⟨1779033703, 3144134277, 1013904242, 2773480762,
   1359893119, 2600822924, 528734635, 1541459225⟩

/-- SHA-256 message padding over a byte sequence. -/
def padBytes (ms : List Nat) : List Nat :=
  let L := ms.length
  let z := (120 - (L + 1) % 64) % 64
  let lenBytes := (List.range 8).map fun i => ((L * 8) >>> ((7 - i) * 8)) % 256
  ms ++ [128] ++ List.replicate z 0 ++ lenBytes

/-- Split a byte sequence into 64-byte blocks. -/
def toBlocks (l : List Nat) : List (List Nat) :=
  if h : l = [] then []
  else l.take 64 :: toBlocks (l.drop 64)
termination_by l.length
decreasing_by
  simp only [List.length_drop]
  exact Nat.sub_lt (List.length_pos.mpr h) (by omega)

/-- The first 16 big-endian 32-bit words of a 64-byte block. -/
def words16 (block : List Nat) : List Nat :=
  (List.range 16).map fun i =>
    block.getD (4 * i) 0 * 16777216 + block.getD (4 * i + 1) 0 * 65536 +
      block.getD (4 * i + 2) 0 * 256 + block.getD (4 * i + 3) 0

/-- Extend the message schedule by `n` further words. -/
def extendW (ws : List Nat) : Nat → List Nat
  | 0 => ws
  | n + 1 =>
    let L := ws.length
    let next := w32 (ws.getD (L - 16) 0 + ssig0 (ws.getD (L - 15) 0) +
      ws.getD (L - 7) 0 + ssig1 (ws.getD (L - 2) 0))
    extendW (ws ++ [next]) n

/-- One SHA-256 compression round. -/
def compressRound (kT wT : Nat) (s : H8) : H8 :=
  let t1 := w32 (s.h + bsig1 s.e + shaCh s.e s.f s.g + kT + wT)
  let t2 := w32 (bsig0 s.a + shaMaj s.a s.b s.c)
  ⟨w32 (t1 + t2), s.a, s.b, s.c, w32 (s.d + t1), s.e, s.f, s.g⟩

/-- Process one 64-byte block. -/
def compressBlock (h : H8) (block : List Nat) : H8 :=
  let ws := extendW (words16 block) 48
  let s := (List.range 64).foldl
    (fun s t => compressRound (K256.getD t 0) (ws.getD t 0) s) h
  ⟨w32 (h.a + s.a), w32 (h.b + s.b), w32 (h.c + s.c), w32 (h.d + s.d),
   w32 (h.e + s.e), w32 (h.f + s.f), w32 (h.g + s.g), w32 (h.h + s.h)⟩

/-- The SHA-256 digest of a byte sequence, as eight 32-bit words. -/
def sha256Words (msg : List Nat) : H8 :=
  (toBlocks (padBytes msg)).foldl compressBlock shaInit

/-- Lower-case hexadecimal digit for a nibble. -/
def nibbleChar (n : Nat) : Char :=
  match n with
  | 0 => '0' | 1 => '1' | 2 => '2' | 3 => '3' | 4 => '4'
  | 5 => '5' | 6 => '6' | 7 => '7' | 8 => '8' | 9 => '9'
  | 10 => 'a' | 11 => 'b' | 12 => 'c' | 13 => 'd' | 14 => 'e' | 15 => 'f'
  | _ => 'x'

/-- The eight hex characters of one 32-bit word, most significant first. -/
def wordHex (x : Nat) : List Char :=
  (List.range 8).map fun i => nibbleChar ((x >>> ((7 - i) * 4)) &&& 15)

/-- The 64 hex characters of `hashlib.sha256(msg).hexdigest()`. -/
def sha256HexChars (msg : List Nat) : List Char :=
  let h := sha256Words msg
  wordHex h.a ++ wordHex h.b ++ wordHex h.c ++ wordHex h.d ++
    wordHex h.e ++ wordHex h.f ++ wordHex h.g ++ wordHex h.h

/-- UTF-8 encoding of one character (Python `str.encode('utf-8')`). -/
def utf8Char (c : Char) : List Nat :=
  let v := c.toNat
  if v < 128 then [v]
  else if v < 2048 then [192 ||| (v >>> 6), 128 ||| (v &&& 63)]
  else if v < 65536 then
    [224 ||| (v >>> 12), 128 ||| ((v >>> 6) &&& 63), 128 ||| (v &&& 63)]
  else
    [240 ||| (v >>> 18), 128 ||| ((v >>> 12) &&& 63),
     128 ||| ((v >>> 6) &&& 63), 128 ||| (v &&& 63)]

/-- UTF-8 bytes of a string. -/
def utf8Bytes (s : String) : List Nat :=
  s.toList.flatMap utf8Char

/-- kv_store._hash_content: first 8 hex chars of the SHA-256 of the UTF-8
encoding of `content`. -/
def hash_content (content : String) : String :=
  ⟨(sha256HexChars (utf8Bytes content)).take 8⟩

/-! ## Content store (tools/kv_store.py)

The module-level dict `_store` is threaded explicitly.  Insertion follows
Python dict semantics: an existing key is updated in place, a new key is
appended at the end. -/

/-- The in-memory key/value store state. -/
abbrev Store : Type := List (String × String)

/-- Python `d[k] = v`: update in place if present, else append. -/
def storeInsert (s : Store) (k v : String) : Store :=
  if (s.lookup k).isSome then
    s.map fun p => if p.1 = k then (k, v) else p
  else
    s ++ [(k, v)]

/-- Python `d.get(k)`. -/
def storeGet (s : Store) (k : String) : Option String :=
  s.lookup k

/-- kv_store.store_content: store `content` and return its SHA key. -/
def store_content (s : Store) (content : String) : String × Store :=
  let sha_key := hash_content content
  (sha_key, storeInsert s sha_key content)

/-- kv_store.get_content: retrieve content by SHA key. -/
def get_content (s : Store) (sha_key : String) : Option String :=
  storeGet s sha_key

/-! ## Oversized-content policy (agent.maybe_store_large_content) -/

def MAX_ITERATIONS : Nat := 5
def MAX_CONTENT_LENGTH : Nat := 4000
def MAX_CONTEXT_LENGTH : Nat := 2000

/-- agent.maybe_store_large_content.  Python's
`f"{prefix}{content}" if prefix else content` is `pfx ++ content` in
either case. -/
def maybe_store_large_content (s : Store) (content : String) (pfx : String) :
    String × Store :=
  if pyLen content ≤ MAX_CONTEXT_LENGTH then
    (pfx ++ content, s)
  else
    let (sha_key, s') := store_content s content
    let preview_length := MAX_CONTEXT_LENGTH - 200
    let truncated := pyTake content preview_length
    (pfx ++ truncated ++ "\n\n[Content truncated - " ++
      toString (pyLen content) ++ " chars total]\n" ++
      "[Full content stored: SHA=" ++ sha_key ++ "]\n" ++
      "[Use GetStoredContentTool with SHA '" ++ sha_key ++
      "' to access full content]", s')

/-! ## Conversation memory (agent.ChannelMemory) -/

/-- Message roles. -/
inductive Role where
  | user
  | assistant
  | tool
  | error
  deriving DecidableEq

/-- baml Message: role plus content. -/
structure Message where
  role : Role
  content : String
  deriving DecidableEq

/-- agent.ChannelMemory: bounded conversation history for a channel. -/
structure ChannelMemory where
  messages : List Message := []
  max_messages : Nat := 20
  deriving DecidableEq

namespace ChannelMemory

/-- `self.messages = self.messages[-self.max_messages:]` when over capacity. -/
def trim (m : ChannelMemory) : ChannelMemory :=
  if m.messages.length > m.max_messages then
    { m with messages := pySliceLast m.messages m.max_messages }
  else m

def add_user_message (m : ChannelMemory) (content : String) : ChannelMemory :=
  trim { m with messages := m.messages ++ [⟨Role.user, content⟩] }

def add_assistant_message (m : ChannelMemory) (content : String) : ChannelMemory :=
  trim { m with messages := m.messages ++ [⟨Role.assistant, content⟩] }

def add_tool_result (m : ChannelMemory) (content : String) : ChannelMemory :=
  trim { m with messages := m.messages ++ [⟨Role.tool, content⟩] }

def add_error (m : ChannelMemory) (content : String) : ChannelMemory :=
  trim { m with messages := m.messages ++ [⟨Role.error, content⟩] }

/-- `get_messages` returns a copy of the list; as a value it is the list
itself. -/
def get_messages (m : ChannelMemory) : List Message :=
  m.messages

end ChannelMemory

/-- One append operation on a ChannelMemory, for stating properties about
arbitrary sequences of appends. -/
inductive AppendOp where
  | user (content : String)
  | assistant (content : String)
  | tool (content : String)
  | error (content : String)
  deriving DecidableEq

/-- The message an append operation appends. -/
def AppendOp.message : AppendOp → Message
  | .user c => ⟨Role.user, c⟩
  | .assistant c => ⟨Role.assistant, c⟩
  | .tool c => ⟨Role.tool, c⟩
  | .error c => ⟨Role.error, c⟩

/-- Apply one append operation. -/
def AppendOp.apply (m : ChannelMemory) : AppendOp → ChannelMemory
  | .user c => m.add_user_message c
  | .assistant c => m.add_assistant_message c
  | .tool c => m.add_tool_result c
  | .error c => m.add_error c

/-- Apply a sequence of append operations in order. -/
def applyOps (m : ChannelMemory) (ops : List AppendOp) : ChannelMemory :=
  ops.foldl AppendOp.apply m

/-! ## Tool-call requests and tool results

GatherInformation may carry the information tools, PerformAction the
action tools (the duck-typed `hasattr` dispatch in the source resolves
exactly by these field sets, so the tagged variants below dispatch to the
same branches the source reaches). -/

/-- Information-gathering tool calls (GatherInformation.tool_calls). -/
inductive GITool where
  | fetchUrl (url : String) (reason : String)
  | tavilySearch (query : String) (reason : String)
  | getStoredContent (sha_key : String) (reason : Option String)
  | getOllamaModels (reason : String)
  deriving DecidableEq

/-- Action tool calls (PerformAction.tool_calls). -/
inductive ActTool where
  | writeFile (file_path : String) (content : String) (reason : String)
  | readFile (file_path : String) (reason : String)
  | bash (command : String) (reason : String)
  deriving DecidableEq

/-- The uniform tool result contract (tools.ToolResult). -/
structure ToolResult (α : Type) where
  success : Bool
  data : α
  error : String
  deriving DecidableEq

/-- Outcome of the HTTP GET performed by fetch_url; for an HTML response
`text` is the BeautifulSoup-extracted text (before the line cleanup the
source applies), for other content types the raw response text. -/
inductive HttpOutcome where
  | timeout
  | clientError (msg : String)
  | exn (msg : String)
  | response (status : Nat) (contentType : String) (text : String)
  deriving DecidableEq

/-- The oracle's structured decision (baml AgentStep output). -/
inductive AgentDecision where
  | finalAnswer (response : String)
  | askUser (question : String) (options : List String)
  | performAction (reasoning : String) (tool_calls : List ActTool)
  | gatherInformation (tool_calls : List GITool)
  deriving DecidableEq

/-- External collaborators: the oracle (indexed by loop iteration) and the
tool capabilities, each modelled as an outcome function.  tavily_search's
network interaction, the filesystem, the shell and the Ollama server are
external; their returned values are supplied by the environment. -/
structure Env where
  oracle : Nat → List Message → Except String AgentDecision
  http : String → HttpOutcome
  tavilyRes : String → String
  ollama : ToolResult (List String)
  readFileRes : String → ToolResult String
  writeFileRes : String → String → ToolResult String
  bashRes : String → ToolResult String

/-! ## fetch_url (agent.fetch_url) -/

/-- Python `line.strip()` (both-ends whitespace strip). -/
def pyStrip (s : String) : String :=
  ⟨(s.toList.dropWhile Char.isWhitespace).reverse.dropWhile Char.isWhitespace |>.reverse⟩

/-- The whitespace cleanup fetch_url applies to extracted HTML text:
split into lines, strip each, drop empties, re-join with newlines. -/
def cleanLines (s : String) : String :=
  String.intercalate "\n" (((s.splitOn "\n").map pyStrip).filter (· ≠ ""))

/-- The `len(text) > MAX_CONTENT_LENGTH` truncation in fetch_url. -/
def truncateContent (text : String) : String :=
  if pyLen text > MAX_CONTENT_LENGTH then
    pyTake text MAX_CONTENT_LENGTH ++ "\n... (content truncated)"
  else text

/-- agent.fetch_url as a function of the HTTP outcome. -/
def fetch_url (resp : HttpOutcome) : String :=
  match resp with
  | .timeout => "Error: Request timed out"
  | .clientError e => "Error fetching URL: " ++ e
  | .exn e => "Error: " ++ e
  | .response status contentType text =>
    if status ≠ 200 then "Error fetching URL: HTTP " ++ toString status
    else if pyContains contentType "text/html" then truncateContent (cleanLines text)
    else if pyContains contentType "application/json" then truncateContent text
    else if pyContains contentType "text/" then truncateContent text
    else "Unsupported content type: " ++ contentType

/-! ## Events

Each capability invocation and each memory append is recorded as an
event, so gating properties ("no shell command runs unless approved")
can be stated about whole runs. -/

inductive Ev where
  | oracleCall (iteration : Nat)
  | fetch (url : String)
  | search (query : String)
  | getStored (sha_key : String)
  | ollamaList
  | readF (file_path : String)
  | writeF (file_path : String) (content : String)
  | bashEx (command : String)
  | append (role : Role) (content : String)
  deriving DecidableEq

/-- Events that touch the filesystem or the shell: exactly the action
tools' invocations. -/
def Ev.isAction : Ev → Bool
  | .readF _ => true
  | .writeF _ _ => true
  | .bashEx _ => true
  | _ => false

/-- The content of a user-role memory append, if this event is one. -/
def Ev.userAppend : Ev → Option String
  | .append Role.user c => some c
  | _ => none

/-! ## Tool dispatch (agent.execute_tool_calls / execute_action_tools) -/

/-- Dispatcher output: successes, errors, the store after the batch, and
the events emitted. -/
structure DispatchOut where
  results : List String
  errors : List String
  store : Store
  trace : List Ev
  deriving DecidableEq

/-- get_stored_content (tools/stored_content.py) over the store state. -/
def get_stored_content (s : Store) (sha_key : String) : ToolResult String :=
  match get_content s sha_key with
  | none => ⟨false, "", "No content found for SHA key: " ++ sha_key⟩
  | some content => ⟨true, content, ""⟩

/-- agent.execute_tool_calls: information-mode dispatch. -/
def execute_tool_calls (env : Env) (s : Store) : List GITool → DispatchOut
  | [] => ⟨[], [], s, []⟩
  | .fetchUrl url reason :: rest =>
    let content := fetch_url (env.http url)
    if pyStartsWith content "Error" then
      let r := execute_tool_calls env s rest
      ⟨r.results, ("Failed to fetch " ++ url ++ " (" ++ reason ++ "): " ++ content) :: r.errors,
        r.store, Ev.fetch url :: r.trace⟩
    else
      let p := maybe_store_large_content s content ("Fetched " ++ url ++ " (" ++ reason ++ "):\n")
      let r := execute_tool_calls env p.2 rest
      ⟨p.1 :: r.results, r.errors, r.store, Ev.fetch url :: r.trace⟩
  | .tavilySearch query reason :: rest =>
    let search_results := env.tavilyRes query
    if pyStartsWith search_results "Error" then
      let r := execute_tool_calls env s rest
      ⟨r.results,
        ("Tavily search failed for '" ++ query ++ "' (" ++ reason ++ "): " ++ search_results) :: r.errors,
        r.store, Ev.search query :: r.trace⟩
    else
      let p := maybe_store_large_content s search_results
        ("Tavily search results for '" ++ query ++ "' (" ++ reason ++ "):\n")
      let r := execute_tool_calls env p.2 rest
      ⟨p.1 :: r.results, r.errors, r.store, Ev.search query :: r.trace⟩
  | .getStoredContent sha_key reason? :: rest =>
    let reason := reason?.getD "Retrieving stored content"
    let tool_result := get_stored_content s sha_key
    if tool_result.success then
      let p := maybe_store_large_content s tool_result.data
        ("Retrieved stored content (" ++ reason ++ ", SHA=" ++ sha_key ++ "):\n")
      let r := execute_tool_calls env p.2 rest
      ⟨p.1 :: r.results, r.errors, r.store, Ev.getStored sha_key :: r.trace⟩
    else
      let r := execute_tool_calls env s rest
      ⟨r.results, ("Tool error (get_stored_content): " ++ tool_result.error) :: r.errors,
        r.store, Ev.getStored sha_key :: r.trace⟩
  | .getOllamaModels reason :: rest =>
    let tool_result := env.ollama
    if tool_result.success then
      let models_list := String.intercalate "\n" (tool_result.data.map (fun m => "- " ++ m))
      let result := "Available Ollama models (" ++ reason ++ "):\n" ++ models_list ++
        "\n\nTotal: " ++ toString tool_result.data.length ++ " models"
      let r := execute_tool_calls env s rest
      ⟨result :: r.results, r.errors, r.store, Ev.ollamaList :: r.trace⟩
    else
      let r := execute_tool_calls env s rest
      ⟨r.results, ("Tool error (get_ollama_models): " ++ tool_result.error) :: r.errors,
        r.store, Ev.ollamaList :: r.trace⟩

/-- agent.execute_action_tools: action-mode dispatch (only reached after
user approval). -/
def execute_action_tools (env : Env) (s : Store) : List ActTool → DispatchOut
  | [] => ⟨[], [], s, []⟩
  | .writeFile file_path content reason :: rest =>
    let tool_result := env.writeFileRes file_path content
    if tool_result.success then
      let r := execute_action_tools env s rest
      ⟨("WriteFile (" ++ reason ++ "): " ++ tool_result.data) :: r.results, r.errors,
        r.store, Ev.writeF file_path content :: r.trace⟩
    else
      let r := execute_action_tools env s rest
      ⟨r.results, ("WriteFile failed (" ++ reason ++ "): " ++ tool_result.error) :: r.errors,
        r.store, Ev.writeF file_path content :: r.trace⟩
  | .readFile file_path reason :: rest =>
    let tool_result := env.readFileRes file_path
    if tool_result.success then
      let p := maybe_store_large_content s tool_result.data
        ("ReadFile (" ++ reason ++ ", path=" ++ file_path ++ "):\n")
      let r := execute_action_tools env p.2 rest
      ⟨p.1 :: r.results, r.errors, r.store, Ev.readF file_path :: r.trace⟩
    else
      let r := execute_action_tools env s rest
      ⟨r.results, ("ReadFile failed (" ++ reason ++ "): " ++ tool_result.error) :: r.errors,
        r.store, Ev.readF file_path :: r.trace⟩
  | .bash command reason :: rest =>
    let tool_result := env.bashRes command
    if tool_result.success then
      let p := maybe_store_large_content s tool_result.data
        ("Bash (" ++ reason ++ ", command='" ++ command ++ "'):\n")
      let r := execute_action_tools env p.2 rest
      ⟨p.1 :: r.results, r.errors, r.store, Ev.bashEx command :: r.trace⟩
    else
      let r := execute_action_tools env s rest
      ⟨r.results, ("Bash failed (" ++ reason ++ "): " ++ tool_result.error) :: r.errors,
        r.store, Ev.bashEx command :: r.trace⟩

/-! ## The agent loop (agent.run_agent_loop and relatives) -/

/-- agent.AgentResult: exactly one field is set by each construction site. -/
structure AgentResult where
  response : Option String := none
  ask_user : Option (String × List String) := none
  perform_action : Option (String × List ActTool) := none
  error : Option String := none
  deriving DecidableEq

/-- Per-session loop state: the channel's memory plus the content store. -/
structure LoopState where
  memory : ChannelMemory
  store : Store
  deriving DecidableEq

/-- A loop invocation's output: the AgentResult, the state after the run,
and the emitted event trace. -/
structure LoopOut where
  result : AgentResult
  state : LoopState
  trace : List Ev
  deriving DecidableEq

def noToolsMessage : String :=
  "No tools were called. Please provide a response."

/-- run_agent_loop's iteration-budget-exhaustion message. -/
def exhaustMessageStart : String :=
  "I've done extensive research but couldn't formulate a complete answer. Please try rephrasing your question."

/-- run_agent_loop_internal's iteration-budget-exhaustion message. -/
def exhaustMessageInternal : String :=
  "Max iterations reached. Please try a different question."

def deniedMessage : String :=
  "[User denied tool execution]"

/-- Append dispatcher successes as tool-result messages. -/
def foldToolResults (m : ChannelMemory) (rs : List String) : ChannelMemory :=
  rs.foldl ChannelMemory.add_tool_result m

/-- Append dispatcher errors as error messages. -/
def foldErrors (m : ChannelMemory) (es : List String) : ChannelMemory :=
  es.foldl ChannelMemory.add_error m

/-- The iteration loop of run_agent_loop:
`for iteration in range(MAX_ITERATIONS)` with the remaining budget as the
recursion measure, parameterised by the budget-exhaustion message. -/
def loopGo (env : Env) (exhaustMsg : String) : Nat → Nat → LoopState → LoopOut
  | 0, _, st => ⟨{ error := some exhaustMsg }, st, []⟩
  | b + 1, iter, st =>
    match env.oracle iter st.memory.get_messages with
    | .error e =>
      ⟨{ error := some ("Agent error: " ++ e) }, st, [Ev.oracleCall iter]⟩
    | .ok (.finalAnswer r) =>
      ⟨{ response := some r }, ⟨st.memory.add_assistant_message r, st.store⟩,
        [Ev.oracleCall iter, Ev.append Role.assistant r]⟩
    | .ok (.askUser q opts) =>
      ⟨{ ask_user := some (q, opts) }, st, [Ev.oracleCall iter]⟩
    | .ok (.performAction reasoning tcs) =>
      ⟨{ perform_action := some (reasoning, tcs) }, st, [Ev.oracleCall iter]⟩
    | .ok (.gatherInformation tcs) =>
      if tcs.isEmpty then
        let st' : LoopState := ⟨st.memory.add_tool_result noToolsMessage, st.store⟩
        let rest := loopGo env exhaustMsg b (iter + 1) st'
        ⟨rest.result, rest.state,
          Ev.oracleCall iter :: Ev.append Role.tool noToolsMessage :: rest.trace⟩
      else
        let d := execute_tool_calls env st.store tcs
        let st' : LoopState := ⟨foldErrors (foldToolResults st.memory d.results) d.errors, d.store⟩
        let rest := loopGo env exhaustMsg b (iter + 1) st'
        ⟨rest.result, rest.state,
          Ev.oracleCall iter :: (d.trace ++ d.results.map (Ev.append Role.tool) ++
            d.errors.map (Ev.append Role.error) ++ rest.trace)⟩

/-- agent.run_agent_loop. -/
def run_agent_loop (env : Env) (st : LoopState) (user_input : String) : LoopOut :=
  let st1 : LoopState := ⟨st.memory.add_user_message user_input, st.store⟩
  let r := loopGo env exhaustMessageStart MAX_ITERATIONS 0 st1
  ⟨r.result, r.state, Ev.append Role.user user_input :: r.trace⟩

/-- The iteration loop of run_agent_loop_internal, embedded separately
(the source writes the two loops out as two functions; their equivalence
is a theorem, not an assumption of the embedding). -/
def loopGoInternal (env : Env) : Nat → Nat → LoopState → LoopOut
  | 0, _, st => ⟨{ error := some exhaustMessageInternal }, st, []⟩
  | b + 1, iter, st =>
    match env.oracle iter st.memory.get_messages with
    | .error e =>
      ⟨{ error := some ("Agent error: " ++ e) }, st, [Ev.oracleCall iter]⟩
    | .ok (.finalAnswer r) =>
      ⟨{ response := some r }, ⟨st.memory.add_assistant_message r, st.store⟩,
        [Ev.oracleCall iter, Ev.append Role.assistant r]⟩
    | .ok (.askUser q opts) =>
      ⟨{ ask_user := some (q, opts) }, st, [Ev.oracleCall iter]⟩
    | .ok (.performAction reasoning tcs) =>
      ⟨{ perform_action := some (reasoning, tcs) }, st, [Ev.oracleCall iter]⟩
    | .ok (.gatherInformation tcs) =>
      if tcs.isEmpty then
        let st' : LoopState := ⟨st.memory.add_tool_result noToolsMessage, st.store⟩
        let rest := loopGoInternal env b (iter + 1) st'
        ⟨rest.result, rest.state,
          Ev.oracleCall iter :: Ev.append Role.tool noToolsMessage :: rest.trace⟩
      else
        let d := execute_tool_calls env st.store tcs
        let st' : LoopState := ⟨foldErrors (foldToolResults st.memory d.results) d.errors, d.store⟩
        let rest := loopGoInternal env b (iter + 1) st'
        ⟨rest.result, rest.state,
          Ev.oracleCall iter :: (d.trace ++ d.results.map (Ev.append Role.tool) ++
            d.errors.map (Ev.append Role.error) ++ rest.trace)⟩

/-- agent.run_agent_loop_internal. -/
def run_agent_loop_internal (env : Env) (st : LoopState) : LoopOut :=
  loopGoInternal env MAX_ITERATIONS 0 st

/-- agent.continue_after_user_choice. -/
def continue_after_user_choice (env : Env) (st : LoopState) (choice : String) : LoopOut :=
  let st1 : LoopState := ⟨st.memory.add_user_message ("I choose: " ++ choice), st.store⟩
  let r := run_agent_loop_internal env st1
  ⟨r.result, r.state, Ev.append Role.user ("I choose: " ++ choice) :: r.trace⟩

/-- agent.continue_after_tool_approval; `perform_action` is the pending
PerformAction's (reasoning, tool_calls). -/
def continue_after_tool_approval (env : Env) (st : LoopState)
    (perform_action : String × List ActTool) (approved : Bool) : LoopOut :=
  if approved then
    let d := execute_action_tools env st.store perform_action.2
    let st1 : LoopState := ⟨foldErrors (foldToolResults st.memory d.results) d.errors, d.store⟩
    let r := run_agent_loop_internal env st1
    ⟨r.result, r.state,
      d.trace ++ d.results.map (Ev.append Role.tool) ++
        d.errors.map (Ev.append Role.error) ++ r.trace⟩
  else
    let st1 : LoopState := ⟨st.memory.add_user_message deniedMessage, st.store⟩
    let r := run_agent_loop_internal env st1
    ⟨r.result, r.state, Ev.append Role.user deniedMessage :: r.trace⟩

/-! ## Lemmas: conversation memory -/

/-- The last `k` elements of a list (all of it when `k ≥ length`). -/
def lastN {α : Type} (l : List α) (k : Nat) : List α :=
  (l.reverse.take k).reverse

theorem lastN_of_le {α : Type} {l : List α} {k : Nat} (h : l.length ≤ k) :
    lastN l k = l := by
  unfold lastN
  rw [List.take_of_length_le (by simpa using h), List.reverse_reverse]

theorem lastN_length {α : Type} (l : List α) (k : Nat) :
    (lastN l k).length = min k l.length := by
  simp [lastN]

theorem lastN_snoc {α : Type} (l : List α) (x : α) {k : Nat} (hk : 1 ≤ k) :
    lastN (lastN l k ++ [x]) k = lastN (l ++ [x]) k := by
  obtain ⟨n, rfl⟩ : ∃ n, k = n + 1 := ⟨k - 1, by omega⟩
  unfold lastN
  simp [List.take_take]

theorem pySliceLast_eq_lastN {α : Type} (l : List α) {k : Nat} (hk : 1 ≤ k) :
    pySliceLast l k = lastN l k := by
  unfold pySliceLast lastN
  rw [if_neg (by omega)]
  rcases le_or_lt k l.length with h | h
  · rw [← List.reverse_reverse (l.drop (l.length - k))]
    congr 1
    rw [List.reverse_drop]
    congr 1
    omega
  · rw [Nat.sub_eq_zero_of_le (by omega), List.drop_zero,
      List.take_of_length_le (by simpa using by omega), List.reverse_reverse]

theorem trim_snoc {C : Nat} (hC : 1 ≤ C) (acc : List Message) (x : Message) :
    ChannelMemory.trim ⟨lastN acc C ++ [x], C⟩ =
      (⟨lastN (acc ++ [x]) C, C⟩ : ChannelMemory) := by
  unfold ChannelMemory.trim
  by_cases h : (lastN acc C ++ [x]).length > C
  · rw [if_pos h]
    simp only
    rw [pySliceLast_eq_lastN _ hC, lastN_snoc _ _ hC]
  · rw [if_neg h]
    simp only [List.length_append, List.length_cons, List.length_nil,
      lastN_length] at h
    have hlen : acc.length < C := by omega
    have h1 : lastN acc C = acc := lastN_of_le (by omega)
    have h2 : lastN (acc ++ [x]) C = acc ++ [x] :=
      lastN_of_le (by simp; omega)
    simp [h1, h2]

theorem apply_lastN {C : Nat} (hC : 1 ≤ C) (acc : List Message) (op : AppendOp) :
    AppendOp.apply ⟨lastN acc C, C⟩ op =
      (⟨lastN (acc ++ [op.message]) C, C⟩ : ChannelMemory) := by
  cases op <;>
    simp only [AppendOp.apply, AppendOp.message, ChannelMemory.add_user_message,
      ChannelMemory.add_assistant_message, ChannelMemory.add_tool_result,
      ChannelMemory.add_error] <;>
    exact trim_snoc hC acc _

theorem applyOps_lastN {C : Nat} (hC : 1 ≤ C) (ops : List AppendOp) :
    ∀ acc : List Message,
      applyOps ⟨lastN acc C, C⟩ ops =
        ⟨lastN (acc ++ ops.map AppendOp.message) C, C⟩ := by
  induction ops with
  | nil => intro acc; simp [applyOps]
  | cons op rest ih =>
    intro acc
    have step := apply_lastN hC acc op
    calc applyOps ⟨lastN acc C, C⟩ (op :: rest)
        = applyOps (AppendOp.apply ⟨lastN acc C, C⟩ op) rest := rfl
      _ = applyOps ⟨lastN (acc ++ [op.message]) C, C⟩ rest := by rw [step]
      _ = ⟨lastN ((acc ++ [op.message]) ++ rest.map AppendOp.message) C, C⟩ := ih _
      _ = ⟨lastN (acc ++ (op :: rest).map AppendOp.message) C, C⟩ := by
          simp

/-! ## Lemmas: content store -/

theorem lookup_none_keys {s : Store} {k : String} :
    s.lookup k = none → ∀ p ∈ s, p.1 ≠ k := by
  induction s with
  | nil => intro _ p hp; cases hp
  | cons q rest ih =>
    intro h p hp hpk
    rw [List.lookup_cons] at h
    by_cases hq : (k == q.1) = true
    · simp [hq] at h
    · rcases List.mem_cons.mp hp with rfl | hp'
      · exact hq (by simp [hpk])
      · exact ih (by simpa [hq] using h) p hp' hpk

theorem lookup_map_update {rest : Store} {k v : String}
    (h : (rest.lookup k).isSome = true) :
    (rest.map (fun p => if p.1 = k then (k, v) else p)).lookup k = some v := by
  induction rest with
  | nil => simp at h
  | cons q rest ih =>
    by_cases hq : q.1 = k
    · simp [List.lookup_cons, hq]
    · rw [List.lookup_cons, show (k == q.1) = false by simp [Ne.symm hq]] at h
      rw [List.map_cons, if_neg hq, List.lookup_cons,
        show (k == q.1) = false by simp [Ne.symm hq]]
      exact ih h

theorem lookup_append_single {s : Store} {k v : String}
    (h : s.lookup k = none) :
    (s ++ [(k, v)]).lookup k = some v := by
  induction s with
  | nil => simp [List.lookup_cons]
  | cons q rest ih =>
    rw [List.lookup_cons] at h
    by_cases hq : (k == q.1) = true
    · simp [hq] at h
    · rw [List.cons_append, List.lookup_cons,
        show (k == q.1) = false by simpa using hq]
      exact ih (by simpa [hq] using h)

theorem storeGet_insert_self (s : Store) (k v : String) :
    storeGet (storeInsert s k v) k = some v := by
  unfold storeInsert storeGet
  by_cases h : (s.lookup k).isSome
  · rw [if_pos h]; exact lookup_map_update h
  · rw [if_neg h]
    exact lookup_append_single (Option.not_isSome_iff_eq_none.mp h)

theorem storeInsert_of_found {t : Store} {k : String} (v : String)
    (h : (t.lookup k).isSome = true) :
    storeInsert t k v = t.map (fun p => if p.1 = k then (k, v) else p) := by
  unfold storeInsert
  rw [if_pos h]

theorem storeInsert_idem (s : Store) (k v : String) :
    storeInsert (storeInsert s k v) k v = storeInsert s k v := by
  have hget : ((storeInsert s k v).lookup k).isSome = true := by
    have := storeGet_insert_self s k v
    unfold storeGet at this
    simp [this]
  rw [storeInsert_of_found v hget]
  have hmap : ∀ p ∈ storeInsert s k v,
      (if p.1 = k then (k, v) else p) = p := by
    intro p hp
    by_cases hpk : p.1 = k
    · unfold storeInsert at hp
      by_cases h : (s.lookup k).isSome
      · rw [if_pos h] at hp
        rcases List.mem_map.mp hp with ⟨q, _, rfl⟩
        by_cases hqk : q.1 = k <;> simp [hqk] at hpk ⊢
      · rw [if_neg h] at hp
        rw [Option.not_isSome_iff_eq_none] at h
        rcases List.mem_append.mp hp with hp | hp
        · exact absurd hpk (lookup_none_keys h p hp)
        · simp at hp
          simp [hp, hpk]
    · simp [hpk]
  calc (storeInsert s k v).map (fun p => if p.1 = k then (k, v) else p)
      = (storeInsert s k v).map id := List.map_congr_left hmap
    _ = storeInsert s k v := List.map_id _

/-! ## Lemmas: hash key shape -/

/-- Lower-case hexadecimal digit test. -/
def isHexChar (c : Char) : Bool :=
  c.isDigit || ('a' ≤ c && c ≤ 'f')

theorem nibbleChar_hex : ∀ n ≤ 15, isHexChar (nibbleChar n) = true := by decide

theorem wordHex_hex (x : Nat) : ∀ c ∈ wordHex x, isHexChar c = true := by
  intro c hc
  rcases List.mem_map.mp hc with ⟨i, _, rfl⟩
  exact nibbleChar_hex _ (Nat.and_le_right)

theorem sha256HexChars_length (msg : List Nat) :
    (sha256HexChars msg).length = 64 := by
  simp [sha256HexChars, wordHex]

theorem sha256HexChars_hex (msg : List Nat) :
    ∀ c ∈ sha256HexChars msg, isHexChar c = true := by
  intro c hc
  unfold sha256HexChars at hc
  simp only [List.mem_append] at hc
  rcases hc with ((((((h | h) | h) | h) | h) | h) | h) | h <;>
    exact wordHex_hex _ _ h

theorem hash_content_length (content : String) :
    pyLen (hash_content content) = 8 := by
  unfold pyLen hash_content
  show ((sha256HexChars (utf8Bytes content)).take 8).length = 8
  rw [List.length_take, sha256HexChars_length]
  omega

theorem hash_content_hex (content : String) :
    ∀ c ∈ (hash_content content).toList, isHexChar c = true := by
  intro c hc
  unfold hash_content at hc
  have : c ∈ sha256HexChars (utf8Bytes content) :=
    List.take_subset _ _ hc
  exact sha256HexChars_hex _ _ this

/-! ## Lemmas: tool dispatch -/

/-- The processing of one information-mode request: its single outcome
(success string or error string), the store afterwards, and the events
emitted. -/
def giStep (env : Env) (s : Store) : GITool → (String ⊕ String) × Store × List Ev
  | .fetchUrl url reason =>
    let content := fetch_url (env.http url)
    if pyStartsWith content "Error" then
      (.inr ("Failed to fetch " ++ url ++ " (" ++ reason ++ "): " ++ content), s, [Ev.fetch url])
    else
      let p := maybe_store_large_content s content ("Fetched " ++ url ++ " (" ++ reason ++ "):\n")
      (.inl p.1, p.2, [Ev.fetch url])
  | .tavilySearch query reason =>
    let search_results := env.tavilyRes query
    if pyStartsWith search_results "Error" then
      (.inr ("Tavily search failed for '" ++ query ++ "' (" ++ reason ++ "): " ++ search_results),
        s, [Ev.search query])
    else
      let p := maybe_store_large_content s search_results
        ("Tavily search results for '" ++ query ++ "' (" ++ reason ++ "):\n")
      (.inl p.1, p.2, [Ev.search query])
  | .getStoredContent sha_key reason? =>
    let reason := reason?.getD "Retrieving stored content"
    let tool_result := get_stored_content s sha_key
    if tool_result.success then
      let p := maybe_store_large_content s tool_result.data
        ("Retrieved stored content (" ++ reason ++ ", SHA=" ++ sha_key ++ "):\n")
      (.inl p.1, p.2, [Ev.getStored sha_key])
    else
      (.inr ("Tool error (get_stored_content): " ++ tool_result.error), s, [Ev.getStored sha_key])
  | .getOllamaModels reason =>
    let tool_result := env.ollama
    if tool_result.success then
      let models_list := String.intercalate "\n" (tool_result.data.map (fun m => "- " ++ m))
      (.inl ("Available Ollama models (" ++ reason ++ "):\n" ++ models_list ++
        "\n\nTotal: " ++ toString tool_result.data.length ++ " models"), s, [Ev.ollamaList])
    else
      (.inr ("Tool error (get_ollama_models): " ++ tool_result.error), s, [Ev.ollamaList])

/-- The processing of one action-mode request. -/
def actStep (env : Env) (s : Store) : ActTool → (String ⊕ String) × Store × List Ev
  | .writeFile file_path content reason =>
    let tool_result := env.writeFileRes file_path content
    if tool_result.success then
      (.inl ("WriteFile (" ++ reason ++ "): " ++ tool_result.data), s, [Ev.writeF file_path content])
    else
      (.inr ("WriteFile failed (" ++ reason ++ "): " ++ tool_result.error), s,
        [Ev.writeF file_path content])
  | .readFile file_path reason =>
    let tool_result := env.readFileRes file_path
    if tool_result.success then
      let p := maybe_store_large_content s tool_result.data
        ("ReadFile (" ++ reason ++ ", path=" ++ file_path ++ "):\n")
      (.inl p.1, p.2, [Ev.readF file_path])
    else
      (.inr ("ReadFile failed (" ++ reason ++ "): " ++ tool_result.error), s, [Ev.readF file_path])
  | .bash command reason =>
    let tool_result := env.bashRes command
    if tool_result.success then
      let p := maybe_store_large_content s tool_result.data
        ("Bash (" ++ reason ++ ", command='" ++ command ++ "'):\n")
      (.inl p.1, p.2, [Ev.bashEx command])
    else
      (.inr ("Bash failed (" ++ reason ++ "): " ++ tool_result.error), s, [Ev.bashEx command])

/-- Combine one request's outcome with the dispatch of the remaining batch. -/
def consCombine (step : (String ⊕ String) × Store × List Ev) (r : DispatchOut) : DispatchOut :=
  match step.1 with
  | .inl a => ⟨a :: r.results, r.errors, r.store, step.2.2 ++ r.trace⟩
  | .inr e => ⟨r.results, e :: r.errors, r.store, step.2.2 ++ r.trace⟩

theorem execute_tool_calls_cons (env : Env) (s : Store) (t : GITool) (ts : List GITool) :
    execute_tool_calls env s (t :: ts) =
      consCombine (giStep env s t) (execute_tool_calls env (giStep env s t).2.1 ts) := by
  cases t <;> simp only [execute_tool_calls, giStep] <;> split <;> rfl

theorem execute_action_tools_cons (env : Env) (s : Store) (t : ActTool) (ts : List ActTool) :
    execute_action_tools env s (t :: ts) =
      consCombine (actStep env s t) (execute_action_tools env (actStep env s t).2.1 ts) := by
  cases t <;> simp only [execute_action_tools, actStep] <;> split <;> rfl

theorem giStep_fail_store (env : Env) (s : Store) (t : GITool) {e : String}
    (h : (giStep env s t).1 = .inr e) : (giStep env s t).2.1 = s := by
  cases t <;> simp only [giStep] at h ⊢ <;> split at h <;> simp_all

theorem actStep_fail_store (env : Env) (s : Store) (t : ActTool) {e : String}
    (h : (actStep env s t).1 = .inr e) : (actStep env s t).2.1 = s := by
  cases t <;> simp only [actStep] at h ⊢ <;> split at h <;> simp_all

theorem execute_tool_calls_counts (env : Env) (ts : List GITool) :
    ∀ s : Store, (execute_tool_calls env s ts).results.length +
      (execute_tool_calls env s ts).errors.length = ts.length := by
  induction ts with
  | nil => intro s; rfl
  | cons t rest ih =>
    intro s
    rw [execute_tool_calls_cons]
    unfold consCombine
    have hih := ih (giStep env s t).2.1
    rcases h : (giStep env s t).1 with a | e <;> simp only [h] <;> simp <;> omega

theorem execute_action_tools_counts (env : Env) (ts : List ActTool) :
    ∀ s : Store, (execute_action_tools env s ts).results.length +
      (execute_action_tools env s ts).errors.length = ts.length := by
  induction ts with
  | nil => intro s; rfl
  | cons t rest ih =>
    intro s
    rw [execute_action_tools_cons]
    unfold consCombine
    have hih := ih (actStep env s t).2.1
    rcases h : (actStep env s t).1 with a | e <;> simp only [h] <;> simp <;> omega

/-- The per-request outcomes of an information-mode batch, in request
order, with the store threaded through. -/
def giOutcomes (env : Env) (s : Store) : List GITool → List (String ⊕ String)
  | [] => []
  | t :: ts => (giStep env s t).1 :: giOutcomes env (giStep env s t).2.1 ts

/-- The per-request outcomes of an action-mode batch. -/
def actOutcomes (env : Env) (s : Store) : List ActTool → List (String ⊕ String)
  | [] => []
  | t :: ts => (actStep env s t).1 :: actOutcomes env (actStep env s t).2.1 ts

/-- The success payloads of a list of outcomes, in order. -/
def leftsOf {α β : Type} (l : List (α ⊕ β)) : List α :=
  l.filterMap fun x => match x with | .inl a => some a | .inr _ => none

/-- The failure payloads of a list of outcomes, in order. -/
def rightsOf {α β : Type} (l : List (α ⊕ β)) : List β :=
  l.filterMap fun x => match x with | .inl _ => none | .inr b => some b

theorem execute_tool_calls_outcomes (env : Env) (ts : List GITool) :
    ∀ s : Store,
      (execute_tool_calls env s ts).results = leftsOf (giOutcomes env s ts) ∧
      (execute_tool_calls env s ts).errors = rightsOf (giOutcomes env s ts) := by
  induction ts with
  | nil => intro s; exact ⟨rfl, rfl⟩
  | cons t rest ih =>
    intro s
    rw [execute_tool_calls_cons]
    unfold consCombine giOutcomes
    rcases h : (giStep env s t).1 with a | e <;>
      simp [leftsOf, rightsOf, (ih _).1, (ih _).2, leftsOf, rightsOf]

theorem execute_action_tools_outcomes (env : Env) (ts : List ActTool) :
    ∀ s : Store,
      (execute_action_tools env s ts).results = leftsOf (actOutcomes env s ts) ∧
      (execute_action_tools env s ts).errors = rightsOf (actOutcomes env s ts) := by
  induction ts with
  | nil => intro s; exact ⟨rfl, rfl⟩
  | cons t rest ih =>
    intro s
    rw [execute_action_tools_cons]
    unfold consCombine actOutcomes
    rcases h : (actStep env s t).1 with a | e <;>
      simp [leftsOf, rightsOf, (ih _).1, (ih _).2]

/-! ## Lemmas: event traces -/

/-- No filesystem/shell event in the trace. -/
def noActionEvents (t : List Ev) : Bool :=
  t.all fun e => !e.isAction

/-- The contents of the user-role appends in a trace, in order. -/
def userAppends (t : List Ev) : List String :=
  t.filterMap Ev.userAppend

theorem giStep_trace_info (env : Env) (s : Store) (t : GITool) :
    noActionEvents (giStep env s t).2.2 = true ∧
      userAppends (giStep env s t).2.2 = [] := by
  cases t <;> simp only [giStep] <;> split <;>
    simp [noActionEvents, userAppends, Ev.isAction, Ev.userAppend]

theorem execute_tool_calls_trace_info (env : Env) (ts : List GITool) :
    ∀ s : Store, noActionEvents (execute_tool_calls env s ts).trace = true ∧
      userAppends (execute_tool_calls env s ts).trace = [] := by
  induction ts with
  | nil => intro s; exact ⟨rfl, rfl⟩
  | cons t rest ih =>
    intro s
    rw [execute_tool_calls_cons]
    unfold consCombine
    have h1 := giStep_trace_info env s t
    have h2 := ih (giStep env s t).2.1
    simp only [noActionEvents, userAppends] at h1 h2 ⊢
    rcases h : (giStep env s t).1 with a | e <;> simp only [h] <;>
      simp [List.all_append, List.filterMap_append, h1.1, h1.2, h2.1, h2.2]

/-! ## Lemmas: the loop -/

theorem loopGo_oracle_error (env : Env) (exhaustMsg : String) (b iter : Nat)
    (st : LoopState) {e : String}
    (h : env.oracle iter st.memory.get_messages = .error e) :
    loopGo env exhaustMsg (b + 1) iter st =
      ⟨{ error := some ("Agent error: " ++ e) }, st, [Ev.oracleCall iter]⟩ := by
  simp only [loopGo, h]

theorem loopGo_empty_gather (env : Env) (exhaustMsg : String) (b iter : Nat)
    (st : LoopState)
    (h : env.oracle iter st.memory.get_messages = .ok (.gatherInformation [])) :
    loopGo env exhaustMsg (b + 1) iter st =
      ⟨(loopGo env exhaustMsg b (iter + 1)
          ⟨st.memory.add_tool_result noToolsMessage, st.store⟩).result,
        (loopGo env exhaustMsg b (iter + 1)
          ⟨st.memory.add_tool_result noToolsMessage, st.store⟩).state,
        Ev.oracleCall iter :: Ev.append Role.tool noToolsMessage ::
          (loopGo env exhaustMsg b (iter + 1)
            ⟨st.memory.add_tool_result noToolsMessage, st.store⟩).trace⟩ := by
  simp only [loopGo, h, List.isEmpty_nil, if_true]

theorem all_map_append_role (r : Role) (l : List String) :
    ((l.map (Ev.append r)).all fun e => !e.isAction) = true := by
  induction l with
  | nil => rfl
  | cons a l ih => simpa [Ev.isAction] using ih

theorem filterMap_map_append_tool (l : List String) :
    (l.map (Ev.append Role.tool)).filterMap Ev.userAppend = [] := by
  induction l with
  | nil => rfl
  | cons a l ih => simpa [Ev.userAppend] using ih

theorem filterMap_map_append_error (l : List String) :
    (l.map (Ev.append Role.error)).filterMap Ev.userAppend = [] := by
  induction l with
  | nil => rfl
  | cons a l ih => simpa [Ev.userAppend] using ih

theorem loopGo_trace_info (env : Env) (exhaustMsg : String) (b : Nat) :
    ∀ (iter : Nat) (st : LoopState),
      noActionEvents (loopGo env exhaustMsg b iter st).trace = true ∧
        userAppends (loopGo env exhaustMsg b iter st).trace = [] := by
  induction b with
  | zero => intro iter st; exact ⟨rfl, rfl⟩
  | succ b ih =>
    intro iter st
    unfold noActionEvents userAppends at ih ⊢
    simp only [loopGo]
    rcases h : env.oracle iter st.memory.get_messages with e | d
    · simp [Ev.isAction, Ev.userAppend]
    · rcases d with r | ⟨q, opts⟩ | ⟨reasoning, tcs⟩ | tcs
      · simp [Ev.isAction, Ev.userAppend]
      · simp [Ev.isAction, Ev.userAppend]
      · simp [Ev.isAction, Ev.userAppend]
      · by_cases htc : tcs.isEmpty <;> simp only [htc, if_true, if_false]
        · have hr := ih (iter + 1) ⟨st.memory.add_tool_result noToolsMessage, st.store⟩
          constructor
          · simp only [List.all_cons, Bool.and_eq_true]
            exact ⟨rfl, rfl, hr.1⟩
          · simp only [List.filterMap_cons, Ev.userAppend]
            exact hr.2
        · have hd := execute_tool_calls_trace_info env tcs st.store
          unfold noActionEvents userAppends at hd
          have hr := ih (iter + 1)
            ⟨foldErrors (foldToolResults st.memory
              (execute_tool_calls env st.store tcs).results)
              (execute_tool_calls env st.store tcs).errors,
              (execute_tool_calls env st.store tcs).store⟩
          constructor
          · have hd1 := hd.1
            have hr1 := hr.1
            simp only [List.all_eq_true] at hd1 hr1
            simp [List.all_append, Ev.isAction, all_map_append_role]
            constructor
            · intro x hx
              have hx' := hd1 x hx
              show Ev.isAction x = false
              simpa using hx'
            · intro x hx
              have hx' := hr1 x hx
              show Ev.isAction x = false
              simpa using hx'
          · simp [List.filterMap_append, Ev.userAppend, hd.2,
              filterMap_map_append_tool, filterMap_map_append_error, hr.2]

theorem loopGo_internal_param (env : Env) (m : String) (b : Nat) :
    ∀ (iter : Nat) (st : LoopState),
      (loopGo env m b iter st).state = (loopGoInternal env b iter st).state ∧
      (loopGo env m b iter st).trace = (loopGoInternal env b iter st).trace ∧
      ((loopGo env m b iter st).result = (loopGoInternal env b iter st).result ∨
        ((loopGo env m b iter st).result = { error := some m } ∧
         (loopGoInternal env b iter st).result =
           { error := some exhaustMessageInternal })) := by
  induction b with
  | zero => intro iter st; exact ⟨rfl, rfl, Or.inr ⟨rfl, rfl⟩⟩
  | succ b ih =>
    intro iter st
    simp only [loopGo, loopGoInternal]
    rcases h : env.oracle iter st.memory.get_messages with e | d
    · exact ⟨rfl, rfl, Or.inl rfl⟩
    · rcases d with r | ⟨q, opts⟩ | ⟨rsn, tcs⟩ | tcs
      · exact ⟨rfl, rfl, Or.inl rfl⟩
      · exact ⟨rfl, rfl, Or.inl rfl⟩
      · exact ⟨rfl, rfl, Or.inl rfl⟩
      · by_cases htc : tcs.isEmpty <;>
          simp only [htc, Bool.false_eq_true, if_true, if_false]
        · have hrec := ih (iter + 1) ⟨st.memory.add_tool_result noToolsMessage, st.store⟩
          exact ⟨hrec.1, by rw [hrec.2.1], hrec.2.2⟩
        · have hrec := ih (iter + 1)
            ⟨foldErrors (foldToolResults st.memory
              (execute_tool_calls env st.store tcs).results)
              (execute_tool_calls env st.store tcs).errors,
              (execute_tool_calls env st.store tcs).store⟩
          exact ⟨hrec.1, by rw [hrec.2.1], hrec.2.2⟩

theorem loopGoInternal_trace_info (env : Env) (b iter : Nat) (st : LoopState) :
    noActionEvents (loopGoInternal env b iter st).trace = true ∧
      userAppends (loopGoInternal env b iter st).trace = [] := by
  have ht := (loopGo_internal_param env exhaustMessageInternal b iter st).2.1
  rw [← ht]
  exact loopGo_trace_info env exhaustMessageInternal b iter st

/-- The event trace of `b` consecutive empty-GatherInformation iterations
starting at iteration `iter`. -/
def loopGatherTrace : Nat → Nat → List Ev
  | 0, _ => []
  | b + 1, iter =>
    Ev.oracleCall iter :: Ev.append Role.tool noToolsMessage ::
      loopGatherTrace b (iter + 1)

theorem loopGo_const_gather (env : Env) (m : String)
    (h : ∀ (i : Nat) (msgs : List Message),
      env.oracle i msgs = .ok (.gatherInformation [])) (b : Nat) :
    ∀ (iter : Nat) (st : LoopState),
      (loopGo env m b iter st).result = { error := some m } ∧
      (loopGo env m b iter st).trace = loopGatherTrace b iter := by
  induction b with
  | zero => intro iter st; exact ⟨rfl, rfl⟩
  | succ b ih =>
    intro iter st
    rw [loopGo_empty_gather env m b iter st (h iter _)]
    have hrec := ih (iter + 1) ⟨st.memory.add_tool_result noToolsMessage, st.store⟩
    refine ⟨hrec.1, ?_⟩
    show Ev.oracleCall iter :: Ev.append Role.tool noToolsMessage ::
      (loopGo env m b (iter + 1)
        ⟨st.memory.add_tool_result noToolsMessage, st.store⟩).trace =
      loopGatherTrace (b + 1) iter
    rw [hrec.2]
    rfl

/-! ## Concrete environments for instantiations -/

/-- A baseline stub environment: the oracle always gathers with no tools,
the HTTP transport times out, every capability succeeds vacuously. -/
def stubEnv : Env :=
  ⟨fun _ _ => .ok (.gatherInformation []), fun _ => .timeout, fun _ => "",
   ⟨true, [], ""⟩, fun _ => ⟨true, "", ""⟩, fun _ _ => ⟨true, "", ""⟩,
   fun _ => ⟨true, "", ""⟩⟩

/-- An environment whose oracle faults on every call. -/
def errOracleEnv : Env :=
  { stubEnv with oracle := fun _ _ => .error "boom" }

/-- An environment in which every tool capability fails. -/
def failToolsEnv : Env :=
  { stubEnv with
    ollama := ⟨false, [], "boom"⟩,
    tavilyRes := fun _ => "Error: tavily down",
    writeFileRes := fun _ _ => ⟨false, "", "disk full"⟩,
    readFileRes := fun _ => ⟨false, "", "File not found: x"⟩,
    bashRes := fun _ => ⟨false, "", "Command failed with exit code 1"⟩ }

/-- HTTP returns a 200 response of an unsupported (non-text) content type. -/
def pngEnv : Env :=
  { stubEnv with http := fun _ => .response 200 "image/png" "x" }

/-- HTTP returns a successful text response whose body begins with
"Error". -/
def errTextEnv : Env :=
  { stubEnv with http := fun _ => .response 200 "text/plain" "Error: nope" }

/-! ## Claims -/

/-- C3 (counterexample): the capacity invariant fails for a ChannelMemory
with capacity 0.  Python's trim slice `messages[-0:]` is the whole list,
so after one append to a capacity-0 memory the length is 1, not ≤ 0, and
the retained messages are not the last min(0, 1) = 0 appends. -/
theorem claim_C3_counterexample :
    ¬ ((applyOps ⟨[], 0⟩ [AppendOp.user "a"]).messages.length ≤ 0 ∧
       (applyOps ⟨[], 0⟩ [AppendOp.user "a"]).messages =
         lastN ([AppendOp.user "a"].map AppendOp.message) 0) := by
  decide

/-- C3 (amended): for every ChannelMemory with capacity C ≥ 1 and every
finite sequence of add_user_message / add_assistant_message /
add_tool_result / add_error appends starting from an empty memory, after
the appends the retained messages are exactly the last min(C, number
appended) appended messages in their original append order, and in
particular length(messages) ≤ C; quantifying over all `ops` covers the
state after each individual append.  (The original claim, for every
capacity C, fails at C = 0, where the source's `messages[-0:]` trim slice
retains everything.) -/
theorem claim_C3_capacity (C : Nat) (hC : 1 ≤ C) (ops : List AppendOp) :
    applyOps ⟨[], C⟩ ops = ⟨lastN (ops.map AppendOp.message) C, C⟩ ∧
    (applyOps ⟨[], C⟩ ops).messages.length = min C ops.length ∧
    (applyOps ⟨[], C⟩ ops).messages.length ≤ C := by
  have h0 : applyOps ⟨[], C⟩ ops = ⟨lastN (ops.map AppendOp.message) C, C⟩ := by
    have := applyOps_lastN hC ops []
    simpa [lastN] using this
  refine ⟨h0, ?_, ?_⟩
  · rw [h0]
    simp [lastN_length]
  · rw [h0]
    simp only [lastN_length, List.length_map]
    exact Nat.min_le_left _ _

theorem claim_C3_capacity_witness :
    applyOps ⟨[], 2⟩ [AppendOp.user "a", AppendOp.tool "b", AppendOp.error "c"] =
      ⟨lastN ([AppendOp.user "a", AppendOp.tool "b",
        AppendOp.error "c"].map AppendOp.message) 2, 2⟩ ∧
    (applyOps ⟨[], 2⟩ [AppendOp.user "a", AppendOp.tool "b",
      AppendOp.error "c"]).messages.length = min 2 3 ∧
    (applyOps ⟨[], 2⟩ [AppendOp.user "a", AppendOp.tool "b",
      AppendOp.error "c"]).messages.length ≤ 2 :=
  claim_C3_capacity 2 (by decide) _

theorem pyLen_mk_replicate (n : Nat) (c : Char) :
    pyLen (String.mk (List.replicate n c)) = n := by
  show (List.replicate n c).length = n
  exact List.length_replicate _ _

/-- C4: maybe_store_large_content returns `prefix ++ content` and leaves
the store unchanged when the content has at most 2000 characters;
otherwise it stores the full content under the 8-hex-character key
`hash_content content` and returns the prefix, the first 1800 characters,
and the three notice lines quoting the total length and the key. -/
theorem claim_C4_oversized_policy (s : Store) (content pfx : String) :
    (pyLen content ≤ 2000 →
      maybe_store_large_content s content pfx = (pfx ++ content, s)) ∧
    (2000 < pyLen content →
      maybe_store_large_content s content pfx =
        (pfx ++ pyTake content 1800 ++ "\n\n[Content truncated - " ++
          toString (pyLen content) ++ " chars total]\n" ++
          "[Full content stored: SHA=" ++ hash_content content ++ "]\n" ++
          "[Use GetStoredContentTool with SHA '" ++ hash_content content ++
          "' to access full content]",
          storeInsert s (hash_content content) content) ∧
      pyLen (hash_content content) = 8 ∧
      (∀ c ∈ (hash_content content).toList, isHexChar c = true)) := by
  constructor
  · intro h
    unfold maybe_store_large_content MAX_CONTEXT_LENGTH
    rw [if_pos h]
  · intro h
    refine ⟨?_, hash_content_length content, hash_content_hex content⟩
    unfold maybe_store_large_content MAX_CONTEXT_LENGTH store_content
    rw [if_neg (by omega)]

theorem claim_C4_oversized_policy_witness :
    (maybe_store_large_content [] "abc" "P: " = ("P: " ++ "abc", [])) ∧
    (maybe_store_large_content [] (String.mk (List.replicate 2001 'a')) "" =
      ("" ++ pyTake (String.mk (List.replicate 2001 'a')) 1800 ++
        "\n\n[Content truncated - " ++
        toString (pyLen (String.mk (List.replicate 2001 'a'))) ++
        " chars total]\n" ++ "[Full content stored: SHA=" ++
        hash_content (String.mk (List.replicate 2001 'a')) ++ "]\n" ++
        "[Use GetStoredContentTool with SHA '" ++
        hash_content (String.mk (List.replicate 2001 'a')) ++
        "' to access full content]",
        storeInsert [] (hash_content (String.mk (List.replicate 2001 'a')))
          (String.mk (List.replicate 2001 'a'))) ∧
      pyLen (hash_content (String.mk (List.replicate 2001 'a'))) = 8 ∧
      (∀ c ∈ (hash_content (String.mk (List.replicate 2001 'a'))).toList,
        isHexChar c = true)) :=
  ⟨(claim_C4_oversized_policy [] "abc" "P: ").1 (by decide),
   (claim_C4_oversized_policy [] (String.mk (List.replicate 2001 'a')) "").2
     (by rw [pyLen_mk_replicate]; omega)⟩

/-- C5: for content longer than 2000 characters, the key emitted by the
oversized-content policy is recoverable — getting it from the store the
policy produced returns the full original content — and storing the same
content again yields the same key and leaves the store unchanged. -/
theorem claim_C5_truncation_roundtrip (s : Store) (content pfx : String)
    (h : 2000 < pyLen content) :
    get_content (maybe_store_large_content s content pfx).2
      (hash_content content) = some content ∧
    store_content (maybe_store_large_content s content pfx).2 content =
      (hash_content content, (maybe_store_large_content s content pfx).2) := by
  have hsnd : (maybe_store_large_content s content pfx).2 =
      storeInsert s (hash_content content) content := by
    unfold maybe_store_large_content MAX_CONTEXT_LENGTH store_content
    rw [if_neg (by omega)]
  rw [hsnd]
  refine ⟨storeGet_insert_self s _ _, ?_⟩
  simp only [store_content]
  rw [storeInsert_idem]

theorem claim_C5_truncation_roundtrip_witness :
    get_content (maybe_store_large_content []
        (String.mk (List.replicate 2001 'a')) "").2
      (hash_content (String.mk (List.replicate 2001 'a'))) =
      some (String.mk (List.replicate 2001 'a')) ∧
    store_content (maybe_store_large_content []
        (String.mk (List.replicate 2001 'a')) "").2
      (String.mk (List.replicate 2001 'a')) =
      (hash_content (String.mk (List.replicate 2001 'a')),
        (maybe_store_large_content []
          (String.mk (List.replicate 2001 'a')) "").2) :=
  claim_C5_truncation_roundtrip [] _ "" (by rw [pyLen_mk_replicate]; omega)

/-- C1: approval gating.  (i) run_agent_loop never invokes a filesystem
or shell capability — a PerformAction decision is returned without any of
its tool_calls being executed.  (ii) continue_after_tool_approval with
approved = false invokes no filesystem or shell capability either, and
appends exactly one user-role message, the fixed denial marker, during
the whole continuation. -/
theorem claim_C1_approval_gating :
    (∀ (env : Env) (st : LoopState) (text : String),
      noActionEvents (run_agent_loop env st text).trace = true) ∧
    (∀ (env : Env) (st : LoopState),
      noActionEvents (run_agent_loop_internal env st).trace = true) ∧
    (∀ (env : Env) (st : LoopState) (choice : String),
      noActionEvents (continue_after_user_choice env st choice).trace = true) ∧
    (∀ (env : Env) (st : LoopState) (pa : String × List ActTool),
      noActionEvents (continue_after_tool_approval env st pa false).trace = true ∧
      userAppends (continue_after_tool_approval env st pa false).trace =
        [deniedMessage]) := by
  refine ⟨?_, ?_, ?_, ?_⟩
  · intro env st text
    have h := loopGo_trace_info env exhaustMessageStart MAX_ITERATIONS 0
      ⟨st.memory.add_user_message text, st.store⟩
    show noActionEvents (Ev.append Role.user text ::
      (loopGo env exhaustMessageStart MAX_ITERATIONS 0
        ⟨st.memory.add_user_message text, st.store⟩).trace) = true
    unfold noActionEvents at h ⊢
    simp only [List.all_cons, Bool.and_eq_true]
    exact ⟨rfl, h.1⟩
  · intro env st
    exact (loopGoInternal_trace_info env MAX_ITERATIONS 0 st).1
  · intro env st choice
    have h := loopGoInternal_trace_info env MAX_ITERATIONS 0
      ⟨st.memory.add_user_message ("I choose: " ++ choice), st.store⟩
    show noActionEvents (Ev.append Role.user ("I choose: " ++ choice) ::
      (loopGoInternal env MAX_ITERATIONS 0
        ⟨st.memory.add_user_message ("I choose: " ++ choice), st.store⟩).trace) = true
    unfold noActionEvents at h ⊢
    simp only [List.all_cons, Bool.and_eq_true]
    exact ⟨rfl, h.1⟩
  · intro env st pa
    have h := loopGoInternal_trace_info env MAX_ITERATIONS 0
      ⟨st.memory.add_user_message deniedMessage, st.store⟩
    constructor
    · show noActionEvents (Ev.append Role.user deniedMessage ::
        (loopGoInternal env MAX_ITERATIONS 0
          ⟨st.memory.add_user_message deniedMessage, st.store⟩).trace) = true
      unfold noActionEvents at h ⊢
      simp only [List.all_cons, Bool.and_eq_true]
      exact ⟨rfl, h.1⟩
    · show userAppends (Ev.append Role.user deniedMessage ::
        (loopGoInternal env MAX_ITERATIONS 0
          ⟨st.memory.add_user_message deniedMessage, st.store⟩).trace) =
        [deniedMessage]
      unfold userAppends at h ⊢
      simp only [List.filterMap_cons, Ev.userAppend, h.2]

/-- C2: with an oracle that on every call returns GatherInformation with
an empty tool_calls list, run_agent_loop makes exactly MAX_ITERATIONS = 5
oracle calls, appends the fixed "No tools were called. Please provide a
response." tool-result message after each of them, and then returns an
AgentResult whose error field is the budget-exhaustion message; it never
loops beyond the 5 iterations. -/
theorem claim_C2_iteration_budget (env : Env) (st : LoopState) (text : String)
    (h : ∀ (i : Nat) (msgs : List Message),
      env.oracle i msgs = .ok (.gatherInformation [])) :
    (run_agent_loop env st text).result = { error := some exhaustMessageStart } ∧
    (run_agent_loop env st text).trace =
      [Ev.append Role.user text,
       Ev.oracleCall 0, Ev.append Role.tool noToolsMessage,
       Ev.oracleCall 1, Ev.append Role.tool noToolsMessage,
       Ev.oracleCall 2, Ev.append Role.tool noToolsMessage,
       Ev.oracleCall 3, Ev.append Role.tool noToolsMessage,
       Ev.oracleCall 4, Ev.append Role.tool noToolsMessage] := by
  have hc := loopGo_const_gather env exhaustMessageStart h MAX_ITERATIONS 0
    ⟨st.memory.add_user_message text, st.store⟩
  constructor
  · exact hc.1
  · show Ev.append Role.user text ::
      (loopGo env exhaustMessageStart MAX_ITERATIONS 0
        ⟨st.memory.add_user_message text, st.store⟩).trace = _
    rw [hc.2]
    rfl

theorem claim_C2_iteration_budget_witness :
    (run_agent_loop stubEnv ⟨⟨[], 20⟩, []⟩ "hi").result =
      { error := some exhaustMessageStart } ∧
    (run_agent_loop stubEnv ⟨⟨[], 20⟩, []⟩ "hi").trace =
      [Ev.append Role.user "hi",
       Ev.oracleCall 0, Ev.append Role.tool noToolsMessage,
       Ev.oracleCall 1, Ev.append Role.tool noToolsMessage,
       Ev.oracleCall 2, Ev.append Role.tool noToolsMessage,
       Ev.oracleCall 3, Ev.append Role.tool noToolsMessage,
       Ev.oracleCall 4, Ev.append Role.tool noToolsMessage] :=
  claim_C2_iteration_budget stubEnv ⟨⟨[], 20⟩, []⟩ "hi" (fun _ _ => rfl)

/-- C7: an oracle fault at the head of any loop iteration aborts the loop
immediately: the result is the terminal "Agent error: <message>", there
is no retry (the trace records only the single failed oracle call), and
the loop state — memory and store — is exactly what it was before the
failed call.  The second part instantiates this at run_agent_loop, whose
memory at the failed first call is the prior memory plus the initial user
append. -/
theorem claim_C7_oracle_fault :
    (∀ (env : Env) (exhaustMsg : String) (b iter : Nat) (st : LoopState)
        (e : String),
      env.oracle iter st.memory.get_messages = .error e →
      loopGo env exhaustMsg (b + 1) iter st =
        ⟨{ error := some ("Agent error: " ++ e) }, st, [Ev.oracleCall iter]⟩) ∧
    (∀ (env : Env) (st : LoopState) (text e : String),
      env.oracle 0 (st.memory.add_user_message text).get_messages = .error e →
      run_agent_loop env st text =
        ⟨{ error := some ("Agent error: " ++ e) },
          ⟨st.memory.add_user_message text, st.store⟩,
          [Ev.append Role.user text, Ev.oracleCall 0]⟩) := by
  constructor
  · intro env exhaustMsg b iter st e h
    exact loopGo_oracle_error env exhaustMsg b iter st h
  · intro env st text e h
    unfold run_agent_loop MAX_ITERATIONS
    rw [show (5 : Nat) = 4 + 1 from rfl]
    simp only [loopGo_oracle_error env exhaustMessageStart 4 0
      ⟨st.memory.add_user_message text, st.store⟩ h]

theorem claim_C7_oracle_fault_witness :
    loopGo errOracleEnv "m" 1 0 ⟨⟨[], 20⟩, []⟩ =
      ⟨{ error := some ("Agent error: " ++ "boom") }, ⟨⟨[], 20⟩, []⟩,
        [Ev.oracleCall 0]⟩ ∧
    run_agent_loop errOracleEnv ⟨⟨[], 20⟩, []⟩ "hi" =
      ⟨{ error := some ("Agent error: " ++ "boom") },
        ⟨ChannelMemory.add_user_message ⟨[], 20⟩ "hi", []⟩,
        [Ev.append Role.user "hi", Ev.oracleCall 0]⟩ :=
  ⟨claim_C7_oracle_fault.1 errOracleEnv "m" 0 0 ⟨⟨[], 20⟩, []⟩ "boom" rfl,
   claim_C7_oracle_fault.2 errOracleEnv ⟨⟨[], 20⟩, []⟩ "hi" "boom" rfl⟩

/-- C9: run_agent_loop(channel, text) and (append text as user message;
run_agent_loop_internal channel) produce the same final state and the
same events (run_agent_loop's trace additionally records the initial user
append), and the same AgentResult — except that on iteration-budget
exhaustion the two return error results with their two different fixed
message texts. -/
theorem claim_C9_loop_equivalence (env : Env) (st : LoopState) (text : String) :
    (run_agent_loop env st text).state =
      (run_agent_loop_internal env
        ⟨st.memory.add_user_message text, st.store⟩).state ∧
    (run_agent_loop env st text).trace =
      Ev.append Role.user text ::
        (run_agent_loop_internal env
          ⟨st.memory.add_user_message text, st.store⟩).trace ∧
    ((run_agent_loop env st text).result =
        (run_agent_loop_internal env
          ⟨st.memory.add_user_message text, st.store⟩).result ∨
      ((run_agent_loop env st text).result =
          { error := some exhaustMessageStart } ∧
        (run_agent_loop_internal env
          ⟨st.memory.add_user_message text, st.store⟩).result =
          { error := some exhaustMessageInternal })) := by
  have h := loopGo_internal_param env exhaustMessageStart
    MAX_ITERATIONS 0 ⟨st.memory.add_user_message text, st.store⟩
  exact ⟨h.1, by
    show Ev.append Role.user text ::
      (loopGo env exhaustMessageStart MAX_ITERATIONS 0
        ⟨st.memory.add_user_message text, st.store⟩).trace = _
    rw [h.2.1]
    rfl, h.2.2⟩

/-- C6: partial-failure isolation for both dispatchers.  Every request of
a batch contributes exactly one output string (so N requests with M
failures yield N−M successes and M errors); the successes and errors are
exactly the success/failure payloads of the per-request outcomes taken in
request order; dispatching a batch decomposes request by request (so a
failing request never prevents the execution of the subsequent requests);
and a failing request leaves the content store unchanged. -/
theorem claim_C6_partial_failure :
    (∀ (env : Env) (s : Store) (ts : List GITool),
      (execute_tool_calls env s ts).results.length +
        (execute_tool_calls env s ts).errors.length = ts.length ∧
      (execute_tool_calls env s ts).results = leftsOf (giOutcomes env s ts) ∧
      (execute_tool_calls env s ts).errors = rightsOf (giOutcomes env s ts)) ∧
    (∀ (env : Env) (s : Store) (t : GITool) (ts : List GITool),
      execute_tool_calls env s (t :: ts) =
        consCombine (giStep env s t)
          (execute_tool_calls env (giStep env s t).2.1 ts)) ∧
    (∀ (env : Env) (s : Store) (t : GITool) (e : String),
      (giStep env s t).1 = .inr e → (giStep env s t).2.1 = s) ∧
    (∀ (env : Env) (s : Store) (ts : List ActTool),
      (execute_action_tools env s ts).results.length +
        (execute_action_tools env s ts).errors.length = ts.length ∧
      (execute_action_tools env s ts).results = leftsOf (actOutcomes env s ts) ∧
      (execute_action_tools env s ts).errors = rightsOf (actOutcomes env s ts)) ∧
    (∀ (env : Env) (s : Store) (t : ActTool) (ts : List ActTool),
      execute_action_tools env s (t :: ts) =
        consCombine (actStep env s t)
          (execute_action_tools env (actStep env s t).2.1 ts)) ∧
    (∀ (env : Env) (s : Store) (t : ActTool) (e : String),
      (actStep env s t).1 = .inr e → (actStep env s t).2.1 = s) := by
  refine ⟨fun env s ts => ⟨execute_tool_calls_counts env ts s,
      (execute_tool_calls_outcomes env ts s).1,
      (execute_tool_calls_outcomes env ts s).2⟩,
    execute_tool_calls_cons, ?_,
    fun env s ts => ⟨execute_action_tools_counts env ts s,
      (execute_action_tools_outcomes env ts s).1,
      (execute_action_tools_outcomes env ts s).2⟩,
    execute_action_tools_cons, ?_⟩
  · intro env s t e h
    exact giStep_fail_store env s t h
  · intro env s t e h
    exact actStep_fail_store env s t h

theorem claim_C6_partial_failure_witness :
    ((execute_tool_calls failToolsEnv []
        [GITool.getOllamaModels "r", GITool.tavilySearch "q" "r2"]).results.length +
      (execute_tool_calls failToolsEnv []
        [GITool.getOllamaModels "r", GITool.tavilySearch "q" "r2"]).errors.length =
      [GITool.getOllamaModels "r", GITool.tavilySearch "q" "r2"].length) ∧
    (giStep failToolsEnv [] (GITool.getOllamaModels "r")).2.1 = ([] : Store) :=
  ⟨(claim_C6_partial_failure.1 failToolsEnv []
      [GITool.getOllamaModels "r", GITool.tavilySearch "q" "r2"]).1,
   claim_C6_partial_failure.2.2.1 failToolsEnv [] (GITool.getOllamaModels "r")
     ("Tool error (get_ollama_models): " ++ "boom") rfl⟩

/-- The error-string shape the original claim C8 asserts for every
failing request: "<ToolName> failed (<reason>): <error>". -/
def hasFailedForm (s reason err : String) : Prop :=
  ∃ toolName : String, s = toolName ++ (" failed (" ++ reason ++ "): " ++ err)

/-- C8 (counterexample): a failing GetOllamaModels request with reason
"r" and underlying error "boom" produces the error string
"Tool error (get_ollama_models): boom", which is not of the form
"<ToolName> failed (<reason>): <error>" — it does not even contain the
request's reason. -/
theorem claim_C8_counterexample :
    (execute_tool_calls failToolsEnv [] [GITool.getOllamaModels "r"]).errors =
      ["Tool error (get_ollama_models): " ++ "boom"] ∧
    ¬ hasFailedForm ("Tool error (get_ollama_models): " ++ "boom") "r" "boom" := by
  constructor
  · rfl
  · rintro ⟨toolName, h⟩
    have hsuffix : (" failed (" ++ "r" ++ "): " ++ "boom").data <:+
        ("Tool error (get_ollama_models): " ++ "boom").data := by
      refine ⟨toolName.data, ?_⟩
      rw [← String.data_append, ← h]
    exact absurd hsuffix (by decide)

/-- C8 (amended): every failing request routes exactly one string to the
errors list and none to the successes list (singleton-batch
characterization, extended to larger batches by the C6 decomposition).
The action dispatcher's error strings have the claimed form
"<ToolName> failed (<reason>): <error>"; the information dispatcher
instead uses "Failed to fetch <url> (<reason>): <error>" for FetchUrl,
"Tavily search failed for '<query>' (<reason>): <error>" for
TavilySearch, and "Tool error (<function>): <error>" — without the
request's reason — for GetStoredContent and GetOllamaModels. -/
theorem claim_C8_error_routing :
    (∀ (env : Env) (s : Store) (url reason : String),
      pyStartsWith (fetch_url (env.http url)) "Error" = true →
      execute_tool_calls env s [GITool.fetchUrl url reason] =
        ⟨[], ["Failed to fetch " ++ url ++ " (" ++ reason ++ "): " ++
          fetch_url (env.http url)], s, [Ev.fetch url]⟩) ∧
    (∀ (env : Env) (s : Store) (query reason : String),
      pyStartsWith (env.tavilyRes query) "Error" = true →
      execute_tool_calls env s [GITool.tavilySearch query reason] =
        ⟨[], ["Tavily search failed for '" ++ query ++ "' (" ++ reason ++
          "): " ++ env.tavilyRes query], s, [Ev.search query]⟩) ∧
    (∀ (env : Env) (s : Store) (sha_key : String) (reason? : Option String),
      (get_stored_content s sha_key).success = false →
      execute_tool_calls env s [GITool.getStoredContent sha_key reason?] =
        ⟨[], ["Tool error (get_stored_content): " ++
          (get_stored_content s sha_key).error], s, [Ev.getStored sha_key]⟩) ∧
    (∀ (env : Env) (s : Store) (reason : String),
      env.ollama.success = false →
      execute_tool_calls env s [GITool.getOllamaModels reason] =
        ⟨[], ["Tool error (get_ollama_models): " ++ env.ollama.error], s,
          [Ev.ollamaList]⟩) ∧
    (∀ (env : Env) (s : Store) (fp c reason : String),
      (env.writeFileRes fp c).success = false →
      execute_action_tools env s [ActTool.writeFile fp c reason] =
        ⟨[], ["WriteFile failed (" ++ reason ++ "): " ++
          (env.writeFileRes fp c).error], s, [Ev.writeF fp c]⟩) ∧
    (∀ (env : Env) (s : Store) (fp reason : String),
      (env.readFileRes fp).success = false →
      execute_action_tools env s [ActTool.readFile fp reason] =
        ⟨[], ["ReadFile failed (" ++ reason ++ "): " ++
          (env.readFileRes fp).error], s, [Ev.readF fp]⟩) ∧
    (∀ (env : Env) (s : Store) (cmd reason : String),
      (env.bashRes cmd).success = false →
      execute_action_tools env s [ActTool.bash cmd reason] =
        ⟨[], ["Bash failed (" ++ reason ++ "): " ++
          (env.bashRes cmd).error], s, [Ev.bashEx cmd]⟩) := by
  refine ⟨?_, ?_, ?_, ?_, ?_, ?_, ?_⟩
  · intro env s url reason h
    simp [execute_tool_calls, h]
  · intro env s query reason h
    simp [execute_tool_calls, h]
  · intro env s sha_key reason? h
    simp [execute_tool_calls, h]
  · intro env s reason h
    simp [execute_tool_calls, h]
  · intro env s fp c reason h
    simp [execute_action_tools, h]
  · intro env s fp reason h
    simp [execute_action_tools, h]
  · intro env s cmd reason h
    simp [execute_action_tools, h]

theorem claim_C8_error_routing_witness :
    execute_tool_calls failToolsEnv [] [GITool.fetchUrl "u" "r"] =
      ⟨[], ["Failed to fetch " ++ "u" ++ " (" ++ "r" ++ "): " ++
        fetch_url (failToolsEnv.http "u")], [], [Ev.fetch "u"]⟩ ∧
    execute_tool_calls failToolsEnv [] [GITool.tavilySearch "q" "r"] =
      ⟨[], ["Tavily search failed for '" ++ "q" ++ "' (" ++ "r" ++ "): " ++
        failToolsEnv.tavilyRes "q"], [], [Ev.search "q"]⟩ ∧
    execute_tool_calls failToolsEnv [] [GITool.getStoredContent "k" none] =
      ⟨[], ["Tool error (get_stored_content): " ++
        (get_stored_content [] "k").error], [], [Ev.getStored "k"]⟩ ∧
    execute_tool_calls failToolsEnv [] [GITool.getOllamaModels "r"] =
      ⟨[], ["Tool error (get_ollama_models): " ++ failToolsEnv.ollama.error],
        [], [Ev.ollamaList]⟩ ∧
    execute_action_tools failToolsEnv [] [ActTool.writeFile "f" "c" "r"] =
      ⟨[], ["WriteFile failed (" ++ "r" ++ "): " ++
        (failToolsEnv.writeFileRes "f" "c").error], [], [Ev.writeF "f" "c"]⟩ ∧
    execute_action_tools failToolsEnv [] [ActTool.readFile "f" "r"] =
      ⟨[], ["ReadFile failed (" ++ "r" ++ "): " ++
        (failToolsEnv.readFileRes "f").error], [], [Ev.readF "f"]⟩ ∧
    execute_action_tools failToolsEnv [] [ActTool.bash "c" "r"] =
      ⟨[], ["Bash failed (" ++ "r" ++ "): " ++
        (failToolsEnv.bashRes "c").error], [], [Ev.bashEx "c"]⟩ :=
  ⟨claim_C8_error_routing.1 failToolsEnv [] "u" "r" (by decide),
   claim_C8_error_routing.2.1 failToolsEnv [] "q" "r" (by decide),
   claim_C8_error_routing.2.2.1 failToolsEnv [] "k" none (by decide),
   claim_C8_error_routing.2.2.2.1 failToolsEnv [] "r" (by decide),
   claim_C8_error_routing.2.2.2.2.1 failToolsEnv [] "f" "c" "r" (by decide),
   claim_C8_error_routing.2.2.2.2.2.1 failToolsEnv [] "f" "r" (by decide),
   claim_C8_error_routing.2.2.2.2.2.2 failToolsEnv [] "c" "r" (by decide)⟩

/-- C10: a FetchUrl request is routed to the errors list exactly when the
string fetch_url returned starts with "Error" (singleton-batch
characterization of both directions); consequently a fetch of an
unsupported content type — whose result string "Unsupported content
type: <type>" does not start with "Error" — lands in the successes list,
while a successful text fetch whose body begins with "Error" is routed
to the errors list. -/
theorem claim_C10_fetch_error_detection :
    (∀ (env : Env) (s : Store) (url reason : String),
      pyStartsWith (fetch_url (env.http url)) "Error" = true →
      execute_tool_calls env s [GITool.fetchUrl url reason] =
        ⟨[], ["Failed to fetch " ++ url ++ " (" ++ reason ++ "): " ++
          fetch_url (env.http url)], s, [Ev.fetch url]⟩) ∧
    (∀ (env : Env) (s : Store) (url reason : String),
      pyStartsWith (fetch_url (env.http url)) "Error" = false →
      execute_tool_calls env s [GITool.fetchUrl url reason] =
        ⟨[(maybe_store_large_content s (fetch_url (env.http url))
            ("Fetched " ++ url ++ " (" ++ reason ++ "):\n")).1], [],
          (maybe_store_large_content s (fetch_url (env.http url))
            ("Fetched " ++ url ++ " (" ++ reason ++ "):\n")).2,
          [Ev.fetch url]⟩) ∧
    (fetch_url (HttpOutcome.response 200 "image/png" "x") =
      "Unsupported content type: " ++ "image/png" ∧
     execute_tool_calls pngEnv [] [GITool.fetchUrl "u" "r"] =
       ⟨["Fetched u (r):\n" ++ "Unsupported content type: image/png"], [],
         [], [Ev.fetch "u"]⟩) ∧
    (fetch_url (HttpOutcome.response 200 "text/plain" "Error: nope") =
      "Error: nope" ∧
     execute_tool_calls errTextEnv [] [GITool.fetchUrl "u" "r"] =
       ⟨[], ["Failed to fetch u (r): " ++ "Error: nope"], [],
         [Ev.fetch "u"]⟩) := by
  refine ⟨?_, ?_, ⟨by decide, by decide⟩, ⟨by decide, by decide⟩⟩
  · intro env s url reason h
    simp [execute_tool_calls, h]
  · intro env s url reason h
    simp [execute_tool_calls, h]

theorem claim_C10_fetch_error_detection_witness :
    execute_tool_calls errTextEnv [] [GITool.fetchUrl "u" "r"] =
      ⟨[], ["Failed to fetch " ++ "u" ++ " (" ++ "r" ++ "): " ++
        fetch_url (errTextEnv.http "u")], [], [Ev.fetch "u"]⟩ ∧
    execute_tool_calls pngEnv [] [GITool.fetchUrl "u" "r"] =
      ⟨[(maybe_store_large_content [] (fetch_url (pngEnv.http "u"))
          ("Fetched " ++ "u" ++ " (" ++ "r" ++ "):\n")).1], [],
        (maybe_store_large_content [] (fetch_url (pngEnv.http "u"))
          ("Fetched " ++ "u" ++ " (" ++ "r" ++ "):\n")).2,
        [Ev.fetch "u"]⟩ :=
  ⟨claim_C10_fetch_error_detection.1 errTextEnv [] "u" "r" (by decide),
   claim_C10_fetch_error_detection.2.1 pngEnv [] "u" "r" (by decide)⟩

end DiscordAgent

